import Mathlib

/-!
Verification of the event buffering, chunking, harvest scheduling and
transmission subsystem of the video telemetry library.

Modelling conventions:
* A telemetry event is abstracted to its `actionName`, its serialized size in
  bytes (`size`, the value `dataSize`/`JSON.stringify(...).length` would
  return for it), an optional `sequence` number (0 meaning unset, matching
  JS falsiness) and an opaque `id` standing for all remaining fields.
* JS numbers holding byte counts are modelled as `Int`; `NaN` poisoning of
  the running payload total is modelled by `Option Int` with `none` for NaN
  (every JS comparison with NaN is false, and arithmetic propagates NaN,
  which is exactly the `Option` behaviour encoded below).
* The serialized size of a payload `{ins: chunk}` is the envelope
  `{"ins":[` ... `]}` (10 characters) plus the events' serialized sizes plus
  one comma between consecutive events.
-/

structure Event where
  actionName : String
  size : Nat
  sequence : Int := 0
  id : Nat := 0
deriving DecidableEq

/-- utils.dataSize: serialized size of an event object, abstracted to the
`size` field of the event. -/
def dataSize (e : Event) : Int := e.size

/-- Constants.MAX_PAYLOAD_SIZE (bytes). -/
def MAX_PAYLOAD_SIZE : Nat := 1048576

/-- Constants.MAX_BEACON_SIZE (bytes). -/
def MAX_BEACON_SIZE : Nat := 61440

/-- Constants.MAX_EVENTS_PER_BATCH. -/
def MAX_EVENTS_PER_BATCH : Nat := 1000

/-- BaseHarvester.calculateChunkSize: byte size of
`JSON.stringify({ins: chunk})` (via `new Blob(...)`): envelope (10 bytes)
plus event sizes plus the commas between events. -/
def calculateChunkSize (chunk : List Event) : Nat :=
  10 + (chunk.map (·.size)).sum + (chunk.length - 1)

/-- utils.getPayloadSize: identical serialized measure, but divided by
1024 * 1024, i.e. reported in megabytes (as its doc comment states). -/
def getPayloadSize (chunk : List Event) : ℚ :=
  (calculateChunkSize chunk : ℚ) / (1024 * 1024)

/-- The common chunking loop shared verbatim by `BaseHarvester.chunkEvents`
and `NRVideoHarvester.chunkEvents`; the two differ only in the predicate
deciding that the current chunk has become too large (`p`). Each step:
flush `currentChunk` when it already holds `MAX_EVENTS_PER_BATCH` events,
push the event, and if the chunk is now over-size pop the event, flush the
remainder when non-empty and restart from the popped event. -/
def chunkLoop (p : List Event → Bool) :
    List Event → List (List Event) → List Event → List (List Event)
  | [], chunks, current =>
      if 0 < current.length then chunks ++ [current] else chunks
  | e :: rest, chunks, current =>
      let countFlush := MAX_EVENTS_PER_BATCH ≤ current.length
      let chunks1 := if countFlush then chunks ++ [current] else chunks
      let current1 := if countFlush then ([] : List Event) else current
      let current2 := current1 ++ [e]
      if p current2 then
        chunkLoop p rest
          (if 0 < current1.length then chunks1 ++ [current1] else chunks1) [e]
      else
        chunkLoop p rest chunks1 current2

namespace BaseHarvester

/-- BaseHarvester.chunkEvents: over-size test compares
`calculateChunkSize` (bytes) against `maxChunkSize` (bytes). -/
def chunkEvents (events : List Event) (maxChunkSize : Nat) :
    List (List Event) :=
  chunkLoop (fun c => decide (maxChunkSize < calculateChunkSize c)) events [] []

end BaseHarvester

namespace NRVideoHarvester

/-- NRVideoHarvester.chunkEvents (harvester.js): over-size test compares
`getPayloadSize` (which returns megabytes) against `maxChunkSize`
(which callers pass in bytes). -/
def chunkEvents (events : List Event) (maxChunkSize : Nat) :
    List (List Event) :=
  chunkLoop (fun c => decide ((maxChunkSize : ℚ) < getPayloadSize c)) events [] []

end NRVideoHarvester

theorem chunkLoop_flatten (p : List Event → Bool) :
    ∀ (events : List Event) (chunks : List (List Event)) (current : List Event),
      (chunkLoop p events chunks current).flatten
        = chunks.flatten ++ current ++ events := by
  intro events
  induction events with
  | nil =>
      intro chunks current
      simp only [chunkLoop]
      split
      · simp
      · next h =>
          have : current = [] := by
            cases current with
            | nil => rfl
            | cons a l => simp at h
          simp [this]
  | cons e rest ih =>
      intro chunks current
      by_cases hc : MAX_EVENTS_PER_BATCH ≤ current.length
      · simp only [chunkLoop, if_pos hc]
        split
        · simp [ih]
        · simp [ih]
      · simp only [chunkLoop, if_neg hc]
        split
        · by_cases h0 : 0 < current.length
          · simp only [if_pos h0]
            simp [ih]
          · have hcur : current = [] := by
              cases current with
              | nil => rfl
              | cons a l => simp at h0
            simp [hcur, ih]
        · simp [ih]

theorem chunkLoop_counts (p : List Event → Bool) :
    ∀ (events : List Event) (chunks : List (List Event)) (current : List Event),
      (∀ c ∈ chunks, c ≠ [] ∧ c.length ≤ MAX_EVENTS_PER_BATCH) →
      current.length ≤ MAX_EVENTS_PER_BATCH →
      ∀ c ∈ chunkLoop p events chunks current,
        c ≠ [] ∧ c.length ≤ MAX_EVENTS_PER_BATCH := by
  intro events
  induction events with
  | nil =>
      intro chunks current hchunks hcur
      simp only [chunkLoop]
      split
      · next h0 =>
          intro c hc
          rcases List.mem_append.1 hc with h | h
          · exact hchunks c h
          · have : c = current := by simpa using h
            subst this
            exact ⟨List.ne_nil_of_length_pos h0, hcur⟩
      · exact hchunks
  | cons e rest ih =>
      intro chunks current hchunks hcur
      by_cases hc : MAX_EVENTS_PER_BATCH ≤ current.length
      · have hlen : current.length = MAX_EVENTS_PER_BATCH := le_antisymm hcur hc
        have hccur : current ≠ [] ∧ current.length ≤ MAX_EVENTS_PER_BATCH := by
          refine ⟨?_, hcur⟩
          intro hnil
          rw [hnil] at hlen
          simp [MAX_EVENTS_PER_BATCH] at hlen
        have hchunks1 : ∀ c ∈ chunks ++ [current],
            c ≠ [] ∧ c.length ≤ MAX_EVENTS_PER_BATCH := by
          intro c hmem
          rcases List.mem_append.1 hmem with h | h
          · exact hchunks c h
          · have : c = current := by simpa using h
            subst this; exact hccur
        simp only [chunkLoop, if_pos hc]
        split
        · simp only [List.length_nil, lt_irrefl, if_neg (by omega : ¬ 0 < 0)]
          exact ih (chunks ++ [current]) [e] hchunks1
            (by simp [MAX_EVENTS_PER_BATCH])
        · exact ih (chunks ++ [current]) ([] ++ [e]) hchunks1
            (by simp [MAX_EVENTS_PER_BATCH])
      · have hcur1 : current.length + 1 ≤ MAX_EVENTS_PER_BATCH := by omega
        simp only [chunkLoop, if_neg hc]
        split
        · by_cases h0 : 0 < current.length
          · simp only [if_pos h0]
            have hchunks1 : ∀ c ∈ chunks ++ [current],
                c ≠ [] ∧ c.length ≤ MAX_EVENTS_PER_BATCH := by
              intro c hmem
              rcases List.mem_append.1 hmem with h | h
              · exact hchunks c h
              · have : c = current := by simpa using h
                subst this
                exact ⟨List.ne_nil_of_length_pos h0, hcur⟩
            exact ih (chunks ++ [current]) [e] hchunks1
              (by simp [MAX_EVENTS_PER_BATCH])
          · simp only [if_neg h0]
            exact ih chunks [e] hchunks (by simp [MAX_EVENTS_PER_BATCH])
        · exact ih chunks (current ++ [e]) hchunks (by simpa using hcur1)

theorem chunkLoop_size (cap : Nat) :
    ∀ (events : List Event) (chunks : List (List Event)) (current : List Event),
      (∀ c ∈ chunks, calculateChunkSize c ≤ cap ∨ c.length = 1) →
      (calculateChunkSize current ≤ cap ∨ current.length ≤ 1) →
      ∀ c ∈ chunkLoop (fun c => decide (cap < calculateChunkSize c))
          events chunks current,
        calculateChunkSize c ≤ cap ∨ c.length = 1 := by
  intro events
  induction events with
  | nil =>
      intro chunks current hchunks hcur
      simp only [chunkLoop]
      split
      · next h0 =>
          intro c hc
          rcases List.mem_append.1 hc with h | h
          · exact hchunks c h
          · have : c = current := by simpa using h
            subst this
            rcases hcur with h | h
            · exact Or.inl h
            · exact Or.inr (by omega)
      · exact hchunks
  | cons e rest ih =>
      intro chunks current hchunks hcur
      by_cases hc : MAX_EVENTS_PER_BATCH ≤ current.length
      · have hcsz : calculateChunkSize current ≤ cap := by
          rcases hcur with h | h
          · exact h
          · exfalso
            have : (1000 : Nat) ≤ current.length := hc
            omega
        have hchunks1 : ∀ c ∈ chunks ++ [current],
            calculateChunkSize c ≤ cap ∨ c.length = 1 := by
          intro c hmem
          rcases List.mem_append.1 hmem with h | h
          · exact hchunks c h
          · have : c = current := by simpa using h
            subst this; exact Or.inl hcsz
        simp only [chunkLoop, if_pos hc]
        split
        · simp only [List.length_nil, lt_irrefl, if_neg (by omega : ¬ 0 < 0)]
          exact ih (chunks ++ [current]) [e] hchunks1 (Or.inr (by simp))
        · next hp =>
            have : ¬ cap < calculateChunkSize ([] ++ [e]) := by
              simpa using hp
            exact ih (chunks ++ [current]) ([] ++ [e]) hchunks1
              (Or.inl (by omega))
      · simp only [chunkLoop, if_neg hc]
        split
        · by_cases h0 : 0 < current.length
          · simp only [if_pos h0]
            have hchunks1 : ∀ c ∈ chunks ++ [current],
                calculateChunkSize c ≤ cap ∨ c.length = 1 := by
              intro c hmem
              rcases List.mem_append.1 hmem with h | h
              · exact hchunks c h
              · have : c = current := by simpa using h
                subst this
                rcases hcur with h | h
                · exact Or.inl h
                · exact Or.inr (by omega)
            exact ih (chunks ++ [current]) [e] hchunks1 (Or.inr (by simp))
          · simp only [if_neg h0]
            exact ih chunks [e] hchunks (Or.inr (by simp))
        · next hp =>
            have : ¬ cap < calculateChunkSize (current ++ [e]) := by
              simpa using hp
            exact ih chunks (current ++ [e]) hchunks (Or.inl (by omega))

/-- A chunk honouring both transmission limits, or being a lone oversized
event (the allowed exception). -/
def chunkWithinLimits (cap : Nat) (c : List Event) : Bool :=
  !c.isEmpty && decide (c.length ≤ MAX_EVENTS_PER_BATCH) &&
    (decide (calculateChunkSize c ≤ cap) || decide (c.length = 1))

/-- The witness events for the units slip in NRVideoHarvester.chunkEvents:
two events of 40000 serialized bytes each, against the 61440-byte final
harvest budget. -/
def evA : Event := { actionName := "CONTENT_HEARTBEAT", size := 40000, id := 1 }

def evB : Event := { actionName := "CONTENT_HEARTBEAT", size := 40000, id := 2 }

/-- C1: For every finite sequence of events and every positive byte cap,
chunking returns an ordered partition of its input: the concatenation of
the chunks is the input, no chunk has more than MAX_EVENTS_PER_BATCH
events, and no chunk exceeds the byte cap except a lone oversized event.
This holds for BaseHarvester.chunkEvents, whose size measure is in bytes
(first conjunct, proved for every cap, hence every positive one); the
remaining conjuncts evaluate NRVideoHarvester.chunkEvents at the concrete
failing input: getPayloadSize reports megabytes, so the byte cap never
splits, and the two 40000-byte events stay in a single 80011-byte chunk
despite the 61440-byte final-harvest cap. -/
theorem C1_chunking_partition :
    (∀ (events : List Event) (cap : Nat),
        (BaseHarvester.chunkEvents events cap).flatten = events ∧
        (BaseHarvester.chunkEvents events cap).all (chunkWithinLimits cap)
          = true) ∧
    NRVideoHarvester.chunkEvents [evA, evB] MAX_BEACON_SIZE = [[evA, evB]] ∧
    MAX_BEACON_SIZE < calculateChunkSize [evA, evB] ∧
    [evA, evB].length ≠ 1 := by
  refine ⟨?_, ?_, by decide, by decide⟩
  case refine_2 =>
    norm_num [NRVideoHarvester.chunkEvents, chunkLoop, getPayloadSize,
      calculateChunkSize, evA, evB, MAX_BEACON_SIZE, MAX_EVENTS_PER_BATCH]
  intro events cap
  constructor
  · simpa using chunkLoop_flatten
      (fun c => decide (cap < calculateChunkSize c)) events [] []
  · rw [List.all_eq_true]
    intro c hmem
    have h1 := chunkLoop_counts (fun c => decide (cap < calculateChunkSize c))
      events [] [] (by simp) (by simp [MAX_EVENTS_PER_BATCH]) c hmem
    have h2 := chunkLoop_size cap events [] [] (by simp) (Or.inr (by simp))
      c hmem
    simp only [chunkWithinLimits, Bool.and_eq_true, Bool.or_eq_true,
      decide_eq_true_eq, Bool.not_eq_true']
    refine ⟨⟨by simpa [List.isEmpty_iff] using h1.1, h1.2⟩, ?_⟩
    rcases h2 with h | h
    · exact Or.inl h
    · exact Or.inr h

/-- C10: neither chunking implementation ever returns an empty chunk, and
the empty input yields an empty list of chunks. -/
theorem C10_no_empty_chunks :
    ∀ (events : List Event) (capB capH : Nat),
      ((BaseHarvester.chunkEvents events capB).all (fun c => !c.isEmpty))
          = true ∧
      ((NRVideoHarvester.chunkEvents events capH).all (fun c => !c.isEmpty))
          = true ∧
      BaseHarvester.chunkEvents [] capB = [] ∧
      NRVideoHarvester.chunkEvents [] capH = [] := by
  intro events capB capH
  refine ⟨?_, ?_, rfl, rfl⟩
  · rw [List.all_eq_true]
    intro c hmem
    have h1 := chunkLoop_counts (fun c => decide (capB < calculateChunkSize c))
      events [] [] (by simp) (by simp [MAX_EVENTS_PER_BATCH]) c hmem
    simpa [List.isEmpty_iff] using h1.1
  · rw [List.all_eq_true]
    intro c hmem
    have h1 := chunkLoop_counts
      (fun c => decide ((capH : ℚ) < getPayloadSize c))
      events [] [] (by simp) (by simp [MAX_EVENTS_PER_BATCH]) c hmem
    simpa [List.isEmpty_iff] using h1.1

inductive TriggerKind
  | overflow
  | smart
deriving DecidableEq

namespace NrVideoEventAggregator

/-- The mutable fields of NrVideoEventAggregator: the unified buffer and its
two running totals. `currentPayloadSize = none` models a NaN-poisoned
total (JS comparisons with NaN are all false, and NaN propagates through
arithmetic, which is the Option behaviour below). -/
structure AggState where
  buffer : List Event
  totalEvents : Int
  currentPayloadSize : Option Int
deriving DecidableEq

/-- Constructor state: empty buffer, both totals zero. -/
def initState : AggState := { buffer := [], totalEvents := 0, currentPayloadSize := some 0 }

/-- The test `this.currentPayloadSize + eventSize >= this.maxPayloadSize`
(false when the running total is NaN). -/
def wouldExceedPayloadB (payload : Option Int) (eventSize : Int) : Bool :=
  match payload with
  | some p => decide ((MAX_PAYLOAD_SIZE : Int) ≤ p + eventSize)
  | none => false

/-- The while loop of makeRoom: evict the oldest event while the count or
payload condition holds, breaking when the buffer empties. -/
def makeRoomAux (newEventSize : Int) :
    List Event → Int → Option Int → List Event × Int × Option Int
  | [], total, payload => ([], total, payload)
  | removed :: rest, total, payload =>
      if decide ((MAX_EVENTS_PER_BATCH : Int) ≤ total)
          || wouldExceedPayloadB payload newEventSize then
        makeRoomAux newEventSize rest (total - 1)
          (payload.map (· - dataSize removed))
      else (removed :: rest, total, payload)

/-- NrVideoEventAggregator.makeRoom: logs and returns without evicting when
the incoming event is itself larger than the payload cap, else runs the
eviction loop. -/
def makeRoom (s : AggState) (newEventSize : Int) : AggState :=
  if decide ((MAX_PAYLOAD_SIZE : Int) < newEventSize) then s
  else
    let r := makeRoomAux newEventSize s.buffer s.totalEvents s.currentPayloadSize
    { buffer := r.1, totalEvents := r.2.1, currentPayloadSize := r.2.2 }

/-- Math.floor(MAX_PAYLOAD_SIZE * 0.6) with 0.6 the IEEE double
(1048576 is a power of two, so the product is exact: 629145.599...). -/
def smartHarvestPayloadThreshold : Int := 629145

/-- Math.floor(MAX_PAYLOAD_SIZE * 0.9) = floor(943718.400...). -/
def overflowPayloadThreshold : Int := 943718

/-- Math.floor(MAX_EVENTS_PER_BATCH * 0.6); 1000 * 0.6 rounds to exactly
600 as a double. -/
def smartHarvestEventThreshold : Int := 600

/-- Math.floor(MAX_EVENTS_PER_BATCH * 0.9) = 900. -/
def overflowEventThreshold : Int := 900

/-- `total >= threshold` on a possibly NaN running total. -/
def optGE (payload : Option Int) (threshold : Int) : Bool :=
  match payload with
  | some p => decide (threshold ≤ p)
  | none => false

/-- NrVideoEventAggregator.checkSmartHarvestTrigger, with the callback
invocation represented by the returned value: the 90% overflow check runs
first (either threshold), else the 60% smart check (either threshold),
else no callback fires. When a callback fires it carries the trigger kind
and the threshold percentage. -/
def checkSmartHarvestTrigger (s : AggState) : Option (TriggerKind × Int) :=
  if optGE s.currentPayloadSize overflowPayloadThreshold
      || decide (overflowEventThreshold ≤ s.totalEvents) then
    some (TriggerKind.overflow, 90)
  else if optGE s.currentPayloadSize smartHarvestPayloadThreshold
      || decide (smartHarvestEventThreshold ≤ s.totalEvents) then
    some (TriggerKind.smart, 60)
  else none

/-- NrVideoEventAggregator.add: make room when either limit would be
exceeded, then either replace at `index` (adjusting the payload total by
the size delta, without touching `totalEvents`) or push. Returns the new
state and the trigger fired by checkSmartHarvestTrigger. On the replace
branch, `index` past the end of the (possibly just-shrunk) buffer gives
`dataSize(undefined)`, i.e. NaN, in JS; `buffer[index] = e` appends when
`index` equals the length (larger indexes, which would create a sparse JS
array, are modelled as an append as well; no verified scenario reaches
them). -/
def add (s : AggState) (e : Event) (index : Option Nat) :
    AggState × Option (TriggerKind × Int) :=
  let eventSize := dataSize e
  let wouldExceedPayload := wouldExceedPayloadB s.currentPayloadSize eventSize
  let wouldExceedEventCount :=
    decide ((MAX_EVENTS_PER_BATCH : Int) ≤ s.totalEvents + 1)
  let s1 := if wouldExceedPayload || wouldExceedEventCount
    then makeRoom s eventSize else s
  let s2 :=
    match index with
    | some i =>
        { s1 with
          buffer := if i < s1.buffer.length then s1.buffer.set i e
                    else s1.buffer ++ [e],
          currentPayloadSize :=
            match s1.currentPayloadSize, s1.buffer.get? i with
            | some p, some prev => some (p + eventSize - dataSize prev)
            | _, _ => none }
    | none =>
        { s1 with
          buffer := s1.buffer ++ [e],
          totalEvents := s1.totalEvents + 1,
          currentPayloadSize := s1.currentPayloadSize.map (· + eventSize) }
  (s2, checkSmartHarvestTrigger s2)

/-- NrVideoEventAggregator.addOrReplaceByActionName: find the queued event
with the given actionName (JS findIndex, -1 when absent) and add with or
without the replacement index. -/
def addOrReplaceByActionName (s : AggState) (actionName : String) (e : Event) :
    AggState × Option (TriggerKind × Int) :=
  match s.buffer.findIdx? (fun ev => ev.actionName == actionName) with
  | none => add s e none
  | some i => add s e (some i)

/-- NrVideoEventAggregator.drain: return the whole buffer in insertion
order and reset both totals. -/
def drain (s : AggState) : List Event × AggState :=
  (s.buffer, { s with buffer := [], totalEvents := 0, currentPayloadSize := some 0 })

/-- NrVideoEventAggregator.size (count of queued events). -/
def size (s : AggState) : Int := s.totalEvents

end NrVideoEventAggregator

/-- An event whose own serialized size (2,000,000 bytes) exceeds
MAX_PAYLOAD_SIZE. -/
def bigEvent : Event := { actionName := "CONTENT_START", size := 2000000, id := 50 }

/-- C4: inserting an event larger than the payload cap into the empty
buffer. makeRoom returns without evicting anything (second conjunct, so
the eviction loop indeed does not run and the error path is taken), but
add then still queues the event and inflates both running totals (first
conjunct) — the code does not reject it as the claim states. -/
theorem C4_oversized_event_queued :
    (NrVideoEventAggregator.add NrVideoEventAggregator.initState bigEvent
        none).1
      = { buffer := [bigEvent], totalEvents := 1,
          currentPayloadSize := some 2000000 } ∧
    NrVideoEventAggregator.makeRoom NrVideoEventAggregator.initState
        (dataSize bigEvent)
      = NrVideoEventAggregator.initState ∧
    (MAX_PAYLOAD_SIZE : Int) < dataSize bigEvent := by decide

/-- A small event, far below every threshold. -/
def smallEvent : Event := { actionName := "CONTENT_PAUSE", size := 10, id := 7 }

/-- C8 counterexample: (1) inserting one small event into the empty buffer
fires no trigger at all, refuting "after every insert exactly one trigger
fires"; (2) at a payload total of 943718 bytes the overflow trigger fires
although the payload fraction is still below 0.9 (943718/1048576 < 9/10,
third conjunct), because the code compares against the floored threshold. -/
theorem C8_counterexample :
    (NrVideoEventAggregator.add NrVideoEventAggregator.initState smallEvent
        none).2 = none ∧
    NrVideoEventAggregator.checkSmartHarvestTrigger
        { buffer := [smallEvent], totalEvents := 1,
          currentPayloadSize := some 943718 }
      = some (TriggerKind.overflow, 90) ∧
    (943718 : Int) * 10 < 1048576 * 9 := by decide

theorem checkSmartHarvestTrigger_cases
    (s : NrVideoEventAggregator.AggState) :
    (NrVideoEventAggregator.checkSmartHarvestTrigger s
        = some (TriggerKind.overflow, 90) ∨
     NrVideoEventAggregator.checkSmartHarvestTrigger s
        = some (TriggerKind.smart, 60) ∨
     NrVideoEventAggregator.checkSmartHarvestTrigger s = none) ∧
    (NrVideoEventAggregator.checkSmartHarvestTrigger s
        = some (TriggerKind.overflow, 90) ↔
      (NrVideoEventAggregator.optGE s.currentPayloadSize
          NrVideoEventAggregator.overflowPayloadThreshold = true ∨
       NrVideoEventAggregator.overflowEventThreshold ≤ s.totalEvents)) ∧
    (NrVideoEventAggregator.checkSmartHarvestTrigger s
        = some (TriggerKind.smart, 60) ↔
      (¬ (NrVideoEventAggregator.optGE s.currentPayloadSize
            NrVideoEventAggregator.overflowPayloadThreshold = true ∨
          NrVideoEventAggregator.overflowEventThreshold ≤ s.totalEvents) ∧
       (NrVideoEventAggregator.optGE s.currentPayloadSize
            NrVideoEventAggregator.smartHarvestPayloadThreshold = true ∨
        NrVideoEventAggregator.smartHarvestEventThreshold ≤ s.totalEvents))) := by
  simp only [NrVideoEventAggregator.checkSmartHarvestTrigger]
  cases hb1 : (NrVideoEventAggregator.optGE s.currentPayloadSize
      NrVideoEventAggregator.overflowPayloadThreshold
    || decide (NrVideoEventAggregator.overflowEventThreshold
        ≤ s.totalEvents)) with
  | true =>
      have h1 := hb1
      rw [Bool.or_eq_true, decide_eq_true_eq] at h1
      simp [hb1, h1]
  | false =>
      have h1 := hb1
      rw [Bool.or_eq_false_iff] at h1
      obtain ⟨h1a, h1b⟩ := h1
      rw [decide_eq_false_iff_not] at h1b
      cases hb2 : (NrVideoEventAggregator.optGE s.currentPayloadSize
          NrVideoEventAggregator.smartHarvestPayloadThreshold
        || decide (NrVideoEventAggregator.smartHarvestEventThreshold
            ≤ s.totalEvents)) with
      | true =>
          have h2 := hb2
          rw [Bool.or_eq_true, decide_eq_true_eq] at h2
          simp [hb1, hb2, h1a, h1b, h2]
      | false =>
          have h2 := hb2
          rw [Bool.or_eq_false_iff] at h2
          obtain ⟨h2a, h2b⟩ := h2
          rw [decide_eq_false_iff_not] at h2b
          simp [hb1, hb2, h1a, h1b, h2a, h2b]

/-- C8 (amended): after every insert at most one trigger callback fires
(the result is a single optional invocation), and it is the overflow
trigger (threshold 90) exactly when the post-insert payload total has
reached the floored 90% payload threshold (943718 bytes) or the
post-insert event count has reached 900; otherwise the smart trigger
(threshold 60) fires exactly when the post-insert totals have reached the
floored 60% thresholds (629145 bytes or 600 events); below those, no
trigger fires. -/
theorem C8_trigger_per_insert (s : NrVideoEventAggregator.AggState)
    (e : Event) (idx : Option Nat) :
    ((NrVideoEventAggregator.add s e idx).2
        = some (TriggerKind.overflow, 90) ∨
     (NrVideoEventAggregator.add s e idx).2
        = some (TriggerKind.smart, 60) ∨
     (NrVideoEventAggregator.add s e idx).2 = none) ∧
    ((NrVideoEventAggregator.add s e idx).2
        = some (TriggerKind.overflow, 90) ↔
      (NrVideoEventAggregator.optGE
          (NrVideoEventAggregator.add s e idx).1.currentPayloadSize
          NrVideoEventAggregator.overflowPayloadThreshold = true ∨
       NrVideoEventAggregator.overflowEventThreshold
          ≤ (NrVideoEventAggregator.add s e idx).1.totalEvents)) ∧
    ((NrVideoEventAggregator.add s e idx).2
        = some (TriggerKind.smart, 60) ↔
      (¬ (NrVideoEventAggregator.optGE
            (NrVideoEventAggregator.add s e idx).1.currentPayloadSize
            NrVideoEventAggregator.overflowPayloadThreshold = true ∨
          NrVideoEventAggregator.overflowEventThreshold
            ≤ (NrVideoEventAggregator.add s e idx).1.totalEvents) ∧
       (NrVideoEventAggregator.optGE
            (NrVideoEventAggregator.add s e idx).1.currentPayloadSize
            NrVideoEventAggregator.smartHarvestPayloadThreshold = true ∨
        NrVideoEventAggregator.smartHarvestEventThreshold
          ≤ (NrVideoEventAggregator.add s e idx).1.totalEvents))) :=
  checkSmartHarvestTrigger_cases (NrVideoEventAggregator.add s e idx).1

/-- Oversized aggregate events for the C3 counterexample. -/
def aggBig1 : Event :=
  { actionName := "VIEW_QOE_AGGREGATE", size := 600000, id := 100 }

def aggBig2 : Event :=
  { actionName := "VIEW_QOE_AGGREGATE", size := 600000, id := 101 }

/-- C3 counterexample: two aggregate events of 600000 bytes each, inserted
through addOrReplaceByActionName into the empty buffer. The second insert
triggers makeRoom (600000 + 600000 exceeds the cap), which evicts the
queued aggregate; the stale replacement index then hits a now-empty
buffer: the event count stays 0 (so count() = 0, not 1 as the claim
states) and the running payload total is NaN-poisoned. -/
theorem C3_counterexample :
    ([aggBig1, aggBig2].foldl
        (fun s e => (NrVideoEventAggregator.addOrReplaceByActionName s
            "VIEW_QOE_AGGREGATE" e).1)
        NrVideoEventAggregator.initState).totalEvents = 0 ∧
    ([aggBig1, aggBig2].foldl
        (fun s e => (NrVideoEventAggregator.addOrReplaceByActionName s
            "VIEW_QOE_AGGREGATE" e).1)
        NrVideoEventAggregator.initState).buffer = [aggBig2] ∧
    ([aggBig1, aggBig2].foldl
        (fun s e => (NrVideoEventAggregator.addOrReplaceByActionName s
            "VIEW_QOE_AGGREGATE" e).1)
        NrVideoEventAggregator.initState).currentPayloadSize = none := by
  decide

theorem addOrReplace_singleton (aggName : String) (a e : Event)
    (ha : a.actionName = aggName) (hsa : a.size ≤ 524287)
    (hse : e.size ≤ 524287) :
    (NrVideoEventAggregator.addOrReplaceByActionName
        { buffer := [a], totalEvents := 1,
          currentPayloadSize := some (dataSize a) } aggName e).1
      = { buffer := [e], totalEvents := 1,
          currentPayloadSize := some (dataSize e) } := by
  have hbeq : (a.actionName == aggName) = true := by
    simp [ha]
  have hidx : List.findIdx? (fun ev => ev.actionName == aggName) [a]
      = some 0 := by
    simp [List.findIdx?_cons, hbeq]
  have hpay : ¬ ((MAX_PAYLOAD_SIZE : Int) ≤ dataSize a + dataSize e) := by
    simp only [dataSize, MAX_PAYLOAD_SIZE]
    push_cast
    omega
  simp only [NrVideoEventAggregator.addOrReplaceByActionName, hidx,
    NrVideoEventAggregator.add, NrVideoEventAggregator.wouldExceedPayloadB,
    decide_eq_true_eq]
  simp only [decide_eq_false hpay]
  simp [MAX_EVENTS_PER_BATCH, dataSize,
    NrVideoEventAggregator.AggState.mk.injEq]

theorem addOrReplace_fold (aggName : String) :
    ∀ (l : List Event) (a : Event), a.actionName = aggName →
      a.size ≤ 524287 → (∀ e ∈ l, e.actionName = aggName ∧ e.size ≤ 524287) →
      l.foldl
          (fun s e =>
            (NrVideoEventAggregator.addOrReplaceByActionName s aggName e).1)
          { buffer := [a], totalEvents := 1,
            currentPayloadSize := some (dataSize a) }
        = { buffer := [l.getLastD a], totalEvents := 1,
            currentPayloadSize := some (dataSize (l.getLastD a)) } := by
  intro l
  induction l with
  | nil => intro a _ _ _; simp
  | cons e rest ih =>
      intro a ha hsa hall
      have he := hall e (by simp)
      rw [List.foldl_cons,
        addOrReplace_singleton aggName a e ha hsa he.2]
      rw [ih e he.1 he.2 (fun x hx => hall x (by simp [hx]))]
      rw [List.getLastD_cons]

/-- C3 (amended): inserting K >= 1 events all carrying the reserved
aggregate actionName into an otherwise empty buffer, each of serialized
size at most 524287 bytes (so the payload-cap eviction path is never
taken), leaves exactly one queued event: the count stays 1 across all
replacements, the surviving event is the last one inserted, it sits at the
original buffer position (the head of the buffer), and the running payload
total equals that last event's size, i.e. it was adjusted by the size
delta of each replacement rather than re-added. -/
theorem C3_aggregate_singleton (aggName : String) (a0 : Event)
    (rest : List Event)
    (hall : ∀ e ∈ a0 :: rest, e.actionName = aggName ∧ e.size ≤ 524287) :
    ((a0 :: rest).foldl
        (fun s e =>
          (NrVideoEventAggregator.addOrReplaceByActionName s aggName e).1)
        NrVideoEventAggregator.initState).totalEvents = 1 ∧
    ((a0 :: rest).foldl
        (fun s e =>
          (NrVideoEventAggregator.addOrReplaceByActionName s aggName e).1)
        NrVideoEventAggregator.initState).buffer = [rest.getLastD a0] ∧
    ((a0 :: rest).foldl
        (fun s e =>
          (NrVideoEventAggregator.addOrReplaceByActionName s aggName e).1)
        NrVideoEventAggregator.initState).currentPayloadSize
      = some (dataSize (rest.getLastD a0)) := by
  have h0 := hall a0 (by simp)
  have hfirst :
      (NrVideoEventAggregator.addOrReplaceByActionName
          NrVideoEventAggregator.initState aggName a0).1
        = { buffer := [a0], totalEvents := 1,
            currentPayloadSize := some (dataSize a0) } := by
    have hpay : ¬ ((MAX_PAYLOAD_SIZE : Int) ≤ 0 + dataSize a0) := by
      have := h0.2
      simp only [dataSize, MAX_PAYLOAD_SIZE]
      push_cast
      omega
    simp only [NrVideoEventAggregator.addOrReplaceByActionName,
      NrVideoEventAggregator.initState, List.findIdx?_nil,
      NrVideoEventAggregator.add, NrVideoEventAggregator.wouldExceedPayloadB]
    simp only [decide_eq_false hpay]
    simp [MAX_EVENTS_PER_BATCH, dataSize]
  rw [List.foldl_cons, hfirst,
    addOrReplace_fold aggName rest a0 h0.1 h0.2
      (fun x hx => hall x (by simp [hx]))]
  exact ⟨rfl, rfl, rfl⟩

/-- Sum of the serialized sizes of a list of events (the value the running
payload total tracks). -/
def sizeSum (l : List Event) : Int := (l.map dataSize).sum

theorem sizeSum_cons (e : Event) (l : List Event) :
    sizeSum (e :: l) = dataSize e + sizeSum l := by
  simp [sizeSum]

theorem sizeSum_append (l1 l2 : List Event) :
    sizeSum (l1 ++ l2) = sizeSum l1 + sizeSum l2 := by
  simp [sizeSum]

theorem sizeSum_le (l : List Event) (h : ∀ x ∈ l, x.size ≤ 1000) :
    sizeSum l ≤ 1000 * l.length := by
  induction l with
  | nil => simp [sizeSum]
  | cons x t ih =>
      have hx := h x (by simp)
      have ht := ih (fun y hy => h y (by simp [hy]))
      rw [sizeSum_cons]
      simp only [List.length_cons, dataSize]
      push_cast
      omega


theorem makeRoomAux_cons_stop (n : Int) (x : Event) (r : List Event)
    (total : Int) (payload : Option Int)
    (h1 : ¬ ((MAX_EVENTS_PER_BATCH : Int) ≤ total))
    (h2 : NrVideoEventAggregator.wouldExceedPayloadB payload n = false) :
    NrVideoEventAggregator.makeRoomAux n (x :: r) total payload
      = (x :: r, total, payload) := by
  simp [NrVideoEventAggregator.makeRoomAux, h1, h2]

theorem makeRoomAux_cons_step (n : Int) (x : Event) (r : List Event)
    (total : Int) (payload : Option Int)
    (h : (MAX_EVENTS_PER_BATCH : Int) ≤ total) :
    NrVideoEventAggregator.makeRoomAux n (x :: r) total payload
      = NrVideoEventAggregator.makeRoomAux n r (total - 1)
          (payload.map (· - dataSize x)) := by
  simp [NrVideoEventAggregator.makeRoomAux, h]

theorem add_none_unfold (s : NrVideoEventAggregator.AggState) (e : Event) :
    (NrVideoEventAggregator.add s e none).1
      = (if NrVideoEventAggregator.wouldExceedPayloadB s.currentPayloadSize
              (dataSize e)
            || decide ((MAX_EVENTS_PER_BATCH : Int) ≤ s.totalEvents + 1)
         then
           { buffer := (NrVideoEventAggregator.makeRoom s (dataSize e)).buffer
               ++ [e],
             totalEvents :=
               (NrVideoEventAggregator.makeRoom s (dataSize e)).totalEvents + 1,
             currentPayloadSize :=
               (NrVideoEventAggregator.makeRoom s
                 (dataSize e)).currentPayloadSize.map (· + dataSize e) }
         else
           { buffer := s.buffer ++ [e], totalEvents := s.totalEvents + 1,
             currentPayloadSize :=
               s.currentPayloadSize.map (· + dataSize e) }) := by
  simp only [NrVideoEventAggregator.add]
  split
  · rfl
  · rfl

theorem push_state_eq (buf : List Event) (e : Event) :
    ({ buffer := buf ++ [e], totalEvents := (buf.length : Int) + 1,
       currentPayloadSize := some (sizeSum buf + dataSize e) } :
      NrVideoEventAggregator.AggState)
      = { buffer := buf ++ [e], totalEvents := ((buf ++ [e]).length : Int),
          currentPayloadSize := some (sizeSum (buf ++ [e])) } := by
  have h1 : (((buf ++ [e]).length : Nat) : Int) = (buf.length : Int) + 1 := by
    simp
  have h2 : sizeSum (buf ++ [e]) = sizeSum buf + dataSize e := by
    rw [sizeSum_append, sizeSum_cons]
    simp [sizeSum]
  rw [h1, h2]

theorem add_small (buf : List Event) (e : Event)
    (hbuf : ∀ x ∈ buf, x.size ≤ 1000) (he : e.size ≤ 1000)
    (hlen : buf.length ≤ 1000) :
    (NrVideoEventAggregator.add
        { buffer := buf, totalEvents := (buf.length : Int),
          currentPayloadSize := some (sizeSum buf) } e none).1
      = { buffer := (if buf.length = 1000 then buf.tail else buf) ++ [e],
          totalEvents :=
            (((if buf.length = 1000 then buf.tail else buf) ++ [e]).length :
              Int),
          currentPayloadSize :=
            some (sizeSum
              ((if buf.length = 1000 then buf.tail else buf) ++ [e])) } := by
  have hsum : sizeSum buf ≤ 1000 * buf.length := sizeSum_le buf hbuf
  have hpayP : ¬ ((MAX_PAYLOAD_SIZE : Int) ≤ sizeSum buf + dataSize e) := by
    simp only [dataSize, MAX_PAYLOAD_SIZE]
    push_cast at hsum ⊢
    omega
  have hpayB : NrVideoEventAggregator.wouldExceedPayloadB
      (some (sizeSum buf)) (dataSize e) = false := by
    simp [NrVideoEventAggregator.wouldExceedPayloadB, hpayP]
  have hbig : ¬ ((MAX_PAYLOAD_SIZE : Int) < dataSize e) := by
    simp only [dataSize, MAX_PAYLOAD_SIZE]
    push_cast
    omega
  rw [add_none_unfold]
  by_cases hcnt : buf.length + 1 < 1000
  · -- fewer than 999 queued events: neither limit fires, plain push
    have hC : ¬ ((MAX_EVENTS_PER_BATCH : Int) ≤ (buf.length : Int) + 1) := by
      simp only [MAX_EVENTS_PER_BATCH]
      push_cast
      omega
    have hcond : ¬ ((NrVideoEventAggregator.wouldExceedPayloadB
        (some (sizeSum buf)) (dataSize e)
        || decide ((MAX_EVENTS_PER_BATCH : Int) ≤ (buf.length : Int) + 1))
          = true) := by
      simp [hpayB, hC]
    have hne : ¬ (buf.length = 1000) := by omega
    rw [if_neg hcond, if_neg hne]
    exact push_state_eq buf e
  · have hC : (MAX_EVENTS_PER_BATCH : Int) ≤ (buf.length : Int) + 1 := by
      simp only [MAX_EVENTS_PER_BATCH]
      push_cast
      omega
    have hcond : (NrVideoEventAggregator.wouldExceedPayloadB
        (some (sizeSum buf)) (dataSize e)
        || decide ((MAX_EVENTS_PER_BATCH : Int) ≤ (buf.length : Int) + 1))
          = true := by
      simp [hC]
    rw [if_pos hcond]
    simp only [NrVideoEventAggregator.makeRoom, decide_eq_false hbig,
      Bool.false_eq_true, if_false]
    by_cases hE : buf.length = 1000
    · -- buffer full: the loop evicts exactly the oldest event
      obtain ⟨b, t, rfl⟩ : ∃ b t, buf = b :: t := by
        cases buf with
        | nil => simp at hE
        | cons b t => exact ⟨b, t, rfl⟩
      have hdelta : sizeSum (b :: t) - dataSize b = sizeSum t := by
        rw [sizeSum_cons]; ring
      have hsumt : sizeSum t ≤ 1000 * t.length :=
        sizeSum_le t (fun y hy => hbuf y (by simp [hy]))
      have hstep : (MAX_EVENTS_PER_BATCH : Int)
          ≤ (((b :: t).length : Nat) : Int) := by
        simp only [MAX_EVENTS_PER_BATCH]
        omega
      rw [makeRoomAux_cons_step _ _ _ _ _ hstep]
      have htlen : t.length = 999 := by
        simp only [List.length_cons] at hE
        omega
      obtain ⟨c, t2, rfl⟩ : ∃ c t2, t = c :: t2 := by
        cases t with
        | nil => simp at htlen
        | cons c t2 => exact ⟨c, t2, rfl⟩
      have ht2 : t2.length = 998 := by
        simp only [List.length_cons] at htlen
        omega
      have hpayP2 : ¬ ((MAX_PAYLOAD_SIZE : Int)
          ≤ sizeSum (c :: t2) + dataSize e) := by
        simp only [dataSize, MAX_PAYLOAD_SIZE]
        simp only [List.length_cons] at hsumt
        push_cast at hsumt ⊢
        omega
      have hpayB2 : NrVideoEventAggregator.wouldExceedPayloadB
          (some (sizeSum (c :: t2))) (dataSize e) = false := by
        simp [NrVideoEventAggregator.wouldExceedPayloadB, hpayP2]
      have hstop : ¬ ((MAX_EVENTS_PER_BATCH : Int)
          ≤ ((((b :: c :: t2).length : Nat) : Int) - 1)) := by
        simp only [MAX_EVENTS_PER_BATCH]
        simp only [List.length_cons] at hE
        omega
      rw [Option.map_some']
      rw [hdelta]
      rw [makeRoomAux_cons_stop _ _ _ _ _ hstop hpayB2]
      rw [if_pos hE]
      simp only [List.tail_cons]
      congr 1
      · simp only [List.length_cons, List.length_append, List.length_nil]
        push_cast
        omega
      · simp only [Option.map_some', Option.some.injEq]
        rw [sizeSum_append, sizeSum_cons]
        simp [sizeSum]
    · -- exactly 999 queued events: the loop condition fails immediately
      have h999 : buf.length = 999 := by omega
      obtain ⟨b, t, rfl⟩ : ∃ b t, buf = b :: t := by
        cases buf with
        | nil => simp at h999
        | cons b t => exact ⟨b, t, rfl⟩
      have hstop : ¬ ((MAX_EVENTS_PER_BATCH : Int)
          ≤ (((b :: t).length : Nat) : Int)) := by
        simp only [MAX_EVENTS_PER_BATCH]
        omega
      rw [makeRoomAux_cons_stop _ _ _ _ _ hstop hpayB]
      rw [if_neg hE]
      exact push_state_eq (b :: t) e

theorem fold_add_small :
    ∀ (l : List Event) (buf : List Event),
      (∀ x ∈ buf, x.size ≤ 1000) → (∀ x ∈ l, x.size ≤ 1000) →
      buf.length ≤ 1000 →
      l.foldl (fun s e => (NrVideoEventAggregator.add s e none).1)
          { buffer := buf, totalEvents := (buf.length : Int),
            currentPayloadSize := some (sizeSum buf) }
        = { buffer := (buf ++ l).drop (buf.length + l.length - 1000),
            totalEvents :=
              (((buf ++ l).drop (buf.length + l.length - 1000)).length : Int),
            currentPayloadSize :=
              some (sizeSum
                ((buf ++ l).drop (buf.length + l.length - 1000))) } := by
  intro l
  induction l with
  | nil =>
      intro buf hbuf _ hlen
      have hz : buf.length - 1000 = 0 := by omega
      simp [hz]
  | cons a lt ih =>
      intro buf hbuf hl hlen
      rw [List.foldl_cons, add_small buf a hbuf (hl a (by simp)) hlen]
      have hb1mem : ∀ x ∈ (if buf.length = 1000 then buf.tail else buf) ++ [a],
          x.size ≤ 1000 := by
        intro x hx
        rcases List.mem_append.1 hx with h | h
        · split at h
          · exact hbuf x (List.mem_of_mem_tail h)
          · exact hbuf x h
        · have hxa : x = a := by simpa using h
          subst hxa
          exact hl x (by simp)
      have hb1len :
          ((if buf.length = 1000 then buf.tail else buf) ++ [a]).length
            ≤ 1000 := by
        split
        · next h => simp [List.length_tail, h]
        · next h =>
            simp only [List.length_append, List.length_cons, List.length_nil]
            omega
      rw [ih ((if buf.length = 1000 then buf.tail else buf) ++ [a]) hb1mem
        (fun x hx => hl x (by simp [hx])) hb1len]
      have hlist :
          (((if buf.length = 1000 then buf.tail else buf) ++ [a]) ++ lt).drop
              (((if buf.length = 1000 then buf.tail else buf) ++ [a]).length
                + lt.length - 1000)
            = (buf ++ a :: lt).drop (buf.length + (a :: lt).length - 1000) := by
        by_cases hE : buf.length = 1000
        · obtain ⟨b, t, rfl⟩ : ∃ b t, buf = b :: t := by
            cases buf with
            | nil => simp at hE
            | cons b t => exact ⟨b, t, rfl⟩
          simp only [if_pos hE, List.tail_cons]
          have h1 : (t ++ [a]).length + lt.length - 1000 = lt.length := by
            simp only [List.length_cons] at hE
            simp only [List.length_append, List.length_cons, List.length_nil]
            omega
          have h2 : (b :: t).length + (a :: lt).length - 1000
              = lt.length + 1 := by
            simp only [List.length_cons] at hE
            simp only [List.length_cons]
            omega
          rw [h1, h2]
          simp [List.drop_succ_cons, List.append_assoc]
        · simp only [if_neg hE]
          have h1 : (buf ++ [a]).length + lt.length - 1000
              = buf.length + (a :: lt).length - 1000 := by
            simp only [List.length_append, List.length_cons, List.length_nil]
            omega
          rw [h1]
          simp [List.append_assoc]
      rw [hlist]

namespace PriorityEventBuffer

/-- PriorityEventBuffer state: the unified buffer, the running event count,
the sequence counter and the statistics counters. (The wall-clock
`timestamp` stamped on events is outside the model; it does not interact
with any counting behaviour.) -/
structure PBState where
  buffer : List Event
  totalEvents : Int
  eventCounter : Int
  eventsAdded : Int
  eventsDropped : Int
  eventsDrained : Int
  bufferOverflows : Int
deriving DecidableEq

/-- Default videoAnalytics.priorityBufferSize. -/
def maxBufferSize : Int := 100

/-- Constructor state. -/
def initState : PBState :=
  { buffer := [], totalEvents := 0, eventCounter := 0, eventsAdded := 0,
    eventsDropped := 0, eventsDrained := 0, bufferOverflows := 0 }

/-- PriorityEventBuffer.makeRoom: drop the oldest event (when any), count
it in eventsDropped and bufferOverflows. -/
def makeRoom (s : PBState) : PBState :=
  match s.buffer with
  | [] => s
  | _ :: rest =>
      { s with buffer := rest, totalEvents := s.totalEvents - 1,
               eventsDropped := s.eventsDropped + 1,
               bufferOverflows := s.bufferOverflows + 1 }

/-- PriorityEventBuffer.add: no-op when the feature flag is off; else stamp
a sequence number when the event has none (JS `!eventObject.sequence`, 0
meaning unset), make room when the buffer is at capacity, and push. -/
def add (enabled : Bool) (s : PBState) (e : Event) : PBState :=
  if !enabled then s
  else
    let e1 := if e.sequence = 0 then { e with sequence := s.eventCounter + 1 }
      else e
    let s0 := if e.sequence = 0 then { s with eventCounter := s.eventCounter + 1 }
      else s
    let s1 := if maxBufferSize ≤ s0.totalEvents then makeRoom s0 else s0
    { s1 with buffer := s1.buffer ++ [e1], totalEvents := s1.totalEvents + 1,
              eventsAdded := s1.eventsAdded + 1 }

end PriorityEventBuffer

theorem pb_add_facts (s : PriorityEventBuffer.PBState) (a : Event)
    (h1 : s.totalEvents = (s.buffer.length : Int)) :
    ((PriorityEventBuffer.add true s a).totalEvents
        = if (100 : Int) ≤ s.totalEvents then s.totalEvents
          else s.totalEvents + 1) ∧
    ((PriorityEventBuffer.add true s a).eventsDropped
        = if (100 : Int) ≤ s.totalEvents then s.eventsDropped + 1
          else s.eventsDropped) ∧
    (((PriorityEventBuffer.add true s a).buffer.length : Int)
        = (PriorityEventBuffer.add true s a).totalEvents) := by
  by_cases hfull : (100 : Int) ≤ s.totalEvents
  · obtain ⟨b, t, hbt⟩ : ∃ b t, s.buffer = b :: t := by
      cases hb : s.buffer with
      | nil =>
          exfalso
          rw [hb] at h1
          simp at h1
          omega
      | cons b t => exact ⟨b, t, rfl⟩
    rw [hbt] at h1
    simp only [List.length_cons] at h1
    by_cases hseq : a.sequence = 0
    · simp [PriorityEventBuffer.add, PriorityEventBuffer.maxBufferSize,
        PriorityEventBuffer.makeRoom, hbt, hseq, hfull, List.length_append]
      omega
    · simp [PriorityEventBuffer.add, PriorityEventBuffer.maxBufferSize,
        PriorityEventBuffer.makeRoom, hbt, hseq, hfull, List.length_append]
      omega
  · by_cases hseq : a.sequence = 0
    · simp [PriorityEventBuffer.add, PriorityEventBuffer.maxBufferSize,
        PriorityEventBuffer.makeRoom, hseq, hfull, List.length_append]
      omega
    · simp [PriorityEventBuffer.add, PriorityEventBuffer.maxBufferSize,
        PriorityEventBuffer.makeRoom, hseq, hfull, List.length_append]
      omega

theorem pb_fold_counts :
    ∀ (l : List Event) (s : PriorityEventBuffer.PBState),
      s.totalEvents = (s.buffer.length : Int) → s.buffer.length ≤ 100 →
      (l.foldl (PriorityEventBuffer.add true) s).totalEvents
          = min ((s.buffer.length : Int) + l.length) 100 ∧
      (l.foldl (PriorityEventBuffer.add true) s).eventsDropped
          = s.eventsDropped
            + max ((s.buffer.length : Int) + l.length - 100) 0 := by
  intro l
  induction l with
  | nil =>
      intro s h1 h2
      constructor
      · simp only [List.foldl_nil, List.length_nil, h1]
        push_cast
        omega
      · simp only [List.foldl_nil, List.length_nil]
        push_cast
        omega
  | cons a lt ih =>
      intro s h1 h2
      rw [List.foldl_cons]
      obtain ⟨hA, hB, hC⟩ := pb_add_facts s a h1
      have hlen1 : (PriorityEventBuffer.add true s a).buffer.length ≤ 100 := by
        by_cases hfull : (100 : Int) ≤ s.totalEvents
        · rw [if_pos hfull] at hA
          omega
        · rw [if_neg hfull] at hA
          omega
      obtain ⟨hT, hD⟩ := ih (PriorityEventBuffer.add true s a) hC.symm hlen1
      constructor
      · rw [hT, hC, hA]
        by_cases hfull : (100 : Int) ≤ s.totalEvents
        · rw [if_pos hfull]
          simp only [List.length_cons]
          push_cast
          omega
        · rw [if_neg hfull]
          simp only [List.length_cons]
          push_cast
          omega
      · rw [hD, hB, hC, hA]
        by_cases hfull : (100 : Int) ≤ s.totalEvents
        · rw [if_pos hfull, if_pos hfull]
          simp only [List.length_cons]
          push_cast
          omega
        · rw [if_neg hfull, if_neg hfull]
          simp only [List.length_cons]
          push_cast
          omega

/-- C2: inserting maxEventCount + 1 events (a head event followed by 1000
more), each well under the byte cap, into the initially empty
NrVideoEventAggregator leaves count() = maxEventCount = 1000, a subsequent
drain() returns exactly the later 1000 events in insertion order and the
first-inserted event is absent from it; and in the PriorityEventBuffer
(which owns the droppedEvents statistic) inserting maxBufferSize + 1
events leaves count() = maxBufferSize and eventsDropped = 1. -/
theorem C2_overflow_eviction (e0 : Event) (rest : List Event)
    (p0 : Event) (prest : List Event)
    (hlen : rest.length = 1000)
    (hsmall : ∀ e ∈ e0 :: rest, e.size ≤ 1000)
    (hnotin : e0 ∉ rest)
    (hplen : prest.length = 100) :
    ((e0 :: rest).foldl (fun s e => (NrVideoEventAggregator.add s e none).1)
        NrVideoEventAggregator.initState).totalEvents
      = (MAX_EVENTS_PER_BATCH : Int) ∧
    (NrVideoEventAggregator.drain
        ((e0 :: rest).foldl
          (fun s e => (NrVideoEventAggregator.add s e none).1)
          NrVideoEventAggregator.initState)).1 = rest ∧
    e0 ∉ (NrVideoEventAggregator.drain
        ((e0 :: rest).foldl
          (fun s e => (NrVideoEventAggregator.add s e none).1)
          NrVideoEventAggregator.initState)).1 ∧
    ((p0 :: prest).foldl (PriorityEventBuffer.add true)
        PriorityEventBuffer.initState).totalEvents
      = PriorityEventBuffer.maxBufferSize ∧
    ((p0 :: prest).foldl (PriorityEventBuffer.add true)
        PriorityEventBuffer.initState).eventsDropped = 1 := by
  have hinit : NrVideoEventAggregator.initState
      = { buffer := ([] : List Event),
          totalEvents := ((([] : List Event).length : Nat) : Int),
          currentPayloadSize := some (sizeSum []) } := rfl
  have hagg := fold_add_small (e0 :: rest) [] (by simp) hsmall (by simp)
  rw [hinit, hagg]
  have hdrop : (([] : List Event) ++ e0 :: rest).drop
      (([] : List Event).length + (e0 :: rest).length - 1000) = rest := by
    simp only [List.nil_append, List.length_nil, List.length_cons, hlen]
    norm_num
  rw [hdrop]
  have hpinit : PriorityEventBuffer.initState.totalEvents
      = ((PriorityEventBuffer.initState.buffer.length : Nat) : Int) := rfl
  have hpb := pb_fold_counts (p0 :: prest) PriorityEventBuffer.initState
    hpinit (by simp [PriorityEventBuffer.initState])
  refine ⟨?_, rfl, hnotin, ?_, ?_⟩
  · simp only [hlen, MAX_EVENTS_PER_BATCH]
  · rw [hpb.1]
    simp only [PriorityEventBuffer.initState, PriorityEventBuffer.maxBufferSize,
      List.length_nil, List.length_cons, hplen]
    push_cast
    omega
  · rw [hpb.2]
    simp only [PriorityEventBuffer.initState, List.length_nil,
      List.length_cons, hplen]
    push_cast
    omega

/-- Concrete distinct small events for the C2 witness. -/
def c2ev (i : Nat) : Event :=
  { actionName := "CONTENT_HEARTBEAT", size := 10, id := i }

/-- Witness for C2 at a concrete input: 1001 distinct 10-byte events into
the aggregator and 101 into the priority buffer. -/
theorem C2_overflow_eviction_witness :
    ((c2ev 0 :: (List.range 1000).map (fun i => c2ev (i + 1))).foldl
        (fun s e => (NrVideoEventAggregator.add s e none).1)
        NrVideoEventAggregator.initState).totalEvents
      = (MAX_EVENTS_PER_BATCH : Int) ∧
    (NrVideoEventAggregator.drain
        ((c2ev 0 :: (List.range 1000).map (fun i => c2ev (i + 1))).foldl
          (fun s e => (NrVideoEventAggregator.add s e none).1)
          NrVideoEventAggregator.initState)).1
      = (List.range 1000).map (fun i => c2ev (i + 1)) ∧
    c2ev 0 ∉ (NrVideoEventAggregator.drain
        ((c2ev 0 :: (List.range 1000).map (fun i => c2ev (i + 1))).foldl
          (fun s e => (NrVideoEventAggregator.add s e none).1)
          NrVideoEventAggregator.initState)).1 ∧
    ((c2ev 0 :: (List.range 100).map (fun i => c2ev (i + 1))).foldl
        (PriorityEventBuffer.add true)
        PriorityEventBuffer.initState).totalEvents
      = PriorityEventBuffer.maxBufferSize ∧
    ((c2ev 0 :: (List.range 100).map (fun i => c2ev (i + 1))).foldl
        (PriorityEventBuffer.add true)
        PriorityEventBuffer.initState).eventsDropped = 1 :=
  C2_overflow_eviction (c2ev 0) ((List.range 1000).map (fun i => c2ev (i + 1)))
    (c2ev 0) ((List.range 100).map (fun i => c2ev (i + 1)))
    (by simp)
    (by
      intro e he
      simp only [List.mem_cons, List.mem_map, List.mem_range] at he
      rcases he with rfl | ⟨i, hi, rfl⟩
      · norm_num [c2ev]
      · norm_num [c2ev])
    (by
      simp only [List.mem_map, List.mem_range, not_exists]
      intro i hi
      simp only [c2ev, Event.mk.injEq] at hi
      omega)
    (by simp)

/-- Concrete aggregate events for the C3 witness. -/
def c3ev (i : Nat) : Event :=
  { actionName := "VIEW_QOE_AGGREGATE", size := 100 + i, id := i }

/-- Witness for C3 at a concrete input: three aggregate replacements. -/
theorem C3_aggregate_singleton_witness :
    ((c3ev 1 :: [c3ev 2, c3ev 3]).foldl
        (fun s e =>
          (NrVideoEventAggregator.addOrReplaceByActionName s
            "VIEW_QOE_AGGREGATE" e).1)
        NrVideoEventAggregator.initState).totalEvents = 1 ∧
    ((c3ev 1 :: [c3ev 2, c3ev 3]).foldl
        (fun s e =>
          (NrVideoEventAggregator.addOrReplaceByActionName s
            "VIEW_QOE_AGGREGATE" e).1)
        NrVideoEventAggregator.initState).buffer
      = [[c3ev 2, c3ev 3].getLastD (c3ev 1)] ∧
    ((c3ev 1 :: [c3ev 2, c3ev 3]).foldl
        (fun s e =>
          (NrVideoEventAggregator.addOrReplaceByActionName s
            "VIEW_QOE_AGGREGATE" e).1)
        NrVideoEventAggregator.initState).currentPayloadSize
      = some (dataSize ([c3ev 2, c3ev 3].getLastD (c3ev 1))) :=
  C3_aggregate_singleton "VIEW_QOE_AGGREGATE" (c3ev 1) [c3ev 2, c3ev 3]
    (by decide)

namespace DeadLetterHandler

/-- The retryPolicy configuration block (defaults from the source:
maxRetries 3, backoffMultiplier 2, initialDelayMs 1000, maxDelayMs
30000). -/
structure BackoffConfig where
  maxRetries : Nat
  backoffMultiplier : ℚ
  initialDelayMs : ℚ
  maxDelayMs : ℚ

def defaultBackoffConfig : BackoffConfig :=
  { maxRetries := 3, backoffMultiplier := 2, initialDelayMs := 1000,
    maxDelayMs := 30000 }

/-- DeadLetterHandler.calculateBackoffDelay. `rand` models Math.random(),
a value in [0, 1); real arithmetic is modelled exactly over ℚ. -/
def calculateBackoffDelay (cfg : BackoffConfig) (retryCount : Nat)
    (rand : ℚ) : ℚ :=
  let exponentialDelay := cfg.initialDelayMs * cfg.backoffMultiplier ^ retryCount
  let cappedDelay := min exponentialDelay cfg.maxDelayMs
  let jitter := cappedDelay * (1/4) * (rand - 1/2)
  max (cappedDelay + jitter) cfg.initialDelayMs

end DeadLetterHandler

namespace OptimizedHttpClient

/-- OptimizedHttpClient.calculateRetryDelay: identical shape but with
exponent retryCount - 1 (scheduleRetry increments retryCount before
calling it). -/
def calculateRetryDelay (cfg : DeadLetterHandler.BackoffConfig)
    (retryCount : Nat) (rand : ℚ) : ℚ :=
  let exponentialDelay :=
    cfg.initialDelayMs * cfg.backoffMultiplier ^ (retryCount - 1)
  let cappedDelay := min exponentialDelay cfg.maxDelayMs
  let jitter := cappedDelay * (1/4) * (rand - 1/2)
  max (cappedDelay + jitter) cfg.initialDelayMs

end OptimizedHttpClient

/-- Modelled from the spec: delay = min(initialDelay * mult^retryCount,
maxDelay), then symmetric jitter delay * 0.25 * u with u in [-0.5, 0.5],
floor clamped to initialDelay. Stated to compare the code's formula to the
claimed one. -/
def specBackoffDelay (initialDelay maxDelay mult : ℚ) (retryCount : Nat)
    (u : ℚ) : ℚ :=
  let delay := min (initialDelay * mult ^ retryCount) maxDelay
  max (delay + delay * (1/4) * u) initialDelay

/-- C5 (amended): for every retry count r and every jitter source value
rand in [0, 1] (u = rand - 0.5 in [-0.5, 0.5]), the DeadLetterHandler
backoff delay equals the spec formula min(initialDelay * mult^r, maxDelay)
plus that value times 0.25 * u, floor-clamped to initialDelay; the delay
is bounded by (9/8) * maxDelay (not maxDelay itself, since positive jitter
is applied after the cap), and consecutive delays satisfy
backoffDelay(r+1) >= backoffDelay(r) * 7/9 (not * (mult - 0.25); adverse
jitter on both sides gives the tight factor (7/8)/(9/8) = 7/9). -/
theorem C5_backoff_schedule (r : Nat) (rand rand2 : ℚ)
    (h0 : 0 ≤ rand) (h1 : rand ≤ 1) (h2 : 0 ≤ rand2) (_h3 : rand2 ≤ 1) :
    DeadLetterHandler.calculateBackoffDelay
        DeadLetterHandler.defaultBackoffConfig r rand
      = specBackoffDelay 1000 30000 2 r (rand - 1/2) ∧
    DeadLetterHandler.calculateBackoffDelay
        DeadLetterHandler.defaultBackoffConfig r rand ≤ (9/8) * 30000 ∧
    (7/9) * DeadLetterHandler.calculateBackoffDelay
        DeadLetterHandler.defaultBackoffConfig r rand
      ≤ DeadLetterHandler.calculateBackoffDelay
          DeadLetterHandler.defaultBackoffConfig (r + 1) rand2 := by
  have hpow : (1 : ℚ) ≤ 2 ^ r := one_le_pow₀ (by norm_num)
  have hpow2 : (2 : ℚ) ^ r ≤ 2 ^ (r + 1) := by
    rw [pow_succ]
    nlinarith
  have hc1 : (1000 : ℚ) ≤ min ((1000 : ℚ) * 2 ^ r) 30000 := by
    apply le_min
    · nlinarith
    · norm_num
  have hc2 : min ((1000 : ℚ) * 2 ^ r) 30000 ≤ 30000 := min_le_right _ _
  have hc3 : min ((1000 : ℚ) * 2 ^ r) 30000
      ≤ min ((1000 : ℚ) * 2 ^ (r + 1)) 30000 := by
    apply le_min
    · calc min ((1000 : ℚ) * 2 ^ r) 30000 ≤ 1000 * 2 ^ r := min_le_left _ _
        _ ≤ 1000 * 2 ^ (r + 1) := by nlinarith
    · exact hc2
  set c := min ((1000 : ℚ) * 2 ^ r) 30000 with hc
  set c2 := min ((1000 : ℚ) * 2 ^ (r + 1)) 30000 with hc2def
  have hcpos : (0 : ℚ) ≤ c := by nlinarith
  have hc2pos : (0 : ℚ) ≤ c2 := le_trans hcpos hc3
  have hval : DeadLetterHandler.calculateBackoffDelay
      DeadLetterHandler.defaultBackoffConfig r rand
        = max (c + c * (1/4) * (rand - 1/2)) 1000 := rfl
  have hval2 : DeadLetterHandler.calculateBackoffDelay
      DeadLetterHandler.defaultBackoffConfig (r + 1) rand2
        = max (c2 + c2 * (1/4) * (rand2 - 1/2)) 1000 := rfl
  refine ⟨rfl, ?_, ?_⟩
  · rw [hval]
    apply max_le
    · nlinarith
    · norm_num
  · rw [hval, hval2]
    have hub : max (c + c * (1/4) * (rand - 1/2)) 1000 ≤ (9/8) * c := by
      apply max_le
      · nlinarith
      · nlinarith
    have hlb : (7/8) * c2 ≤ max (c2 + c2 * (1/4) * (rand2 - 1/2)) 1000 := by
      calc (7/8) * c2 ≤ c2 + c2 * (1/4) * (rand2 - 1/2) := by nlinarith
        _ ≤ max (c2 + c2 * (1/4) * (rand2 - 1/2)) 1000 := le_max_left _ _
    nlinarith [hub, hlb, hc3]

/-- Witness for C5 at r = 1, rand = rand2 = 1/2 (zero jitter). -/
theorem C5_backoff_schedule_witness :
    DeadLetterHandler.calculateBackoffDelay
        DeadLetterHandler.defaultBackoffConfig 1 (1/2)
      = specBackoffDelay 1000 30000 2 1 ((1/2 : ℚ) - 1/2) ∧
    DeadLetterHandler.calculateBackoffDelay
        DeadLetterHandler.defaultBackoffConfig 1 (1/2) ≤ (9/8) * 30000 ∧
    (7/9) * DeadLetterHandler.calculateBackoffDelay
        DeadLetterHandler.defaultBackoffConfig 1 (1/2)
      ≤ DeadLetterHandler.calculateBackoffDelay
          DeadLetterHandler.defaultBackoffConfig (1 + 1) (1/2) :=
  C5_backoff_schedule 1 (1/2) (1/2) (by norm_num) (by norm_num)
    (by norm_num) (by norm_num)

/-- C5 counterexample: (1) at retry count 5 with rand = 0.9 the delay is
33000 > maxDelay = 30000, refuting backoffDelay(r) <= maxDelay; (2) at
retry count 2 < maxRetries = 3, with adverse jitter (rand 0.98 then 0.02),
backoffDelay(3) = 7040 < 7840 = backoffDelay(2) * (mult - 0.25), refuting
the claimed monotonicity factor; (3) the OptimizedHttpClient variant uses
exponent retryCount - 1, so at retry count 2 with zero jitter it returns
2000, not the 4000 the claimed formula gives. -/
theorem C5_counterexample :
    (30000 : ℚ) < DeadLetterHandler.calculateBackoffDelay
        DeadLetterHandler.defaultBackoffConfig 5 (9/10) ∧
    (0 : ℚ) ≤ 9/10 ∧ (9/10 : ℚ) ≤ 1 ∧
    (2 : Nat) < DeadLetterHandler.defaultBackoffConfig.maxRetries ∧
    DeadLetterHandler.calculateBackoffDelay
        DeadLetterHandler.defaultBackoffConfig (2 + 1) (1/50)
      < ((2 : ℚ) - 1/4) * DeadLetterHandler.calculateBackoffDelay
          DeadLetterHandler.defaultBackoffConfig 2 (49/50) ∧
    OptimizedHttpClient.calculateRetryDelay
        DeadLetterHandler.defaultBackoffConfig 2 (1/2) = 2000 ∧
    specBackoffDelay 1000 30000 2 2 ((1/2 : ℚ) - 1/2) = 4000 := by
  refine ⟨?_, by norm_num, by norm_num, ?_, ?_, ?_, ?_⟩
  · norm_num [DeadLetterHandler.calculateBackoffDelay,
      DeadLetterHandler.defaultBackoffConfig]
  · norm_num [DeadLetterHandler.defaultBackoffConfig]
  · norm_num [DeadLetterHandler.calculateBackoffDelay,
      DeadLetterHandler.defaultBackoffConfig]
  · norm_num [OptimizedHttpClient.calculateRetryDelay,
      DeadLetterHandler.defaultBackoffConfig]
  · norm_num [specBackoffDelay]

/-- utils.shouldRetry: the switch returns true for 408/429/500, false for
401/403/404, and otherwise retries 502-504 and 512-530. -/
def shouldRetry (status : Nat) : Bool :=
  if status = 408 ∨ status = 429 ∨ status = 500 then true
  else if status = 401 ∨ status = 403 ∨ status = 404 then false
  else decide (502 ≤ status ∧ status ≤ 504)
    || decide (512 ≤ status ∧ status ≤ 530)

namespace OptimizedHttpClient

/-- OptimizedHttpClient.handleRequestComplete retry decision:
`!result.success && (result.status === 0 || shouldRetry(result.status))`. -/
def handleRequestCompleteRetry (success : Bool) (status : Nat) : Bool :=
  !success && (decide (status = 0) || shouldRetry status)

/-- OptimizedHttpClient.shouldRetryRequest: success is never retried,
status 0 always is, otherwise only the list [408, 429, 500, 502, 503,
504]. -/
def shouldRetryRequest (success : Bool) (status : Nat) : Bool :=
  if success then false
  else if status = 0 then true
  else [408, 429, 500, 502, 503, 504].contains status

end OptimizedHttpClient

/-- C6 (amended): a completed send is classified retryable by
handleRequestComplete (through utils.shouldRetry) iff it was not
successful and its status is 0 or one of 408/429/500/502/503/504 or in
512-530; the shouldRetryRequest variant in the same file retries exactly
the same set minus the 512-530 range (those statuses are terminal on that
path); successful sends and the statuses 401, 403, 404 and every other
failure status are terminal in both classifiers. -/
theorem C6_retry_classification (status : Nat) :
    (OptimizedHttpClient.handleRequestCompleteRetry false status = true ↔
      (status = 0 ∨ status = 408 ∨ status = 429 ∨ status = 500 ∨
       status = 502 ∨ status = 503 ∨ status = 504 ∨
       (512 ≤ status ∧ status ≤ 530))) ∧
    OptimizedHttpClient.handleRequestCompleteRetry true status = false ∧
    (OptimizedHttpClient.shouldRetryRequest false status = true ↔
      (status = 0 ∨ status = 408 ∨ status = 429 ∨ status = 500 ∨
       status = 502 ∨ status = 503 ∨ status = 504)) ∧
    OptimizedHttpClient.shouldRetryRequest true status = false := by
  refine ⟨?_, ?_, ?_, ?_⟩
  · simp only [OptimizedHttpClient.handleRequestCompleteRetry, shouldRetry,
      Bool.not_false, Bool.true_and, Bool.or_eq_true, decide_eq_true_eq]
    split
    · next h => exact ⟨fun _ => by omega, fun _ => Or.inr rfl⟩
    · next h =>
        split
        · next h2 =>
            simp only [Bool.false_eq_true, or_false]
            constructor <;> intro <;> omega
        · next h2 =>
            simp only [Bool.or_eq_true, decide_eq_true_eq]
            constructor <;> intro <;> omega
  · simp [OptimizedHttpClient.handleRequestCompleteRetry]
  · simp only [OptimizedHttpClient.shouldRetryRequest, Bool.false_eq_true,
      if_false]
    split
    · next h => exact ⟨fun _ => by omega, fun _ => rfl⟩
    · next h =>
        have hmem : ([408, 429, 500, 502, 503, 504].contains status = true)
            ↔ (status = 408 ∨ status = 429 ∨ status = 500 ∨ status = 502 ∨
               status = 503 ∨ status = 504) := by
          simp
        rw [hmem]
        constructor <;> intro <;> omega
  · simp [OptimizedHttpClient.shouldRetryRequest]

/-- C6 counterexample: status 512 on a failed send is retryable per
handleRequestComplete/utils.shouldRetry but terminal per the
shouldRetryRequest variant, so the claimed single classification does not
hold for the latter. -/
theorem C6_counterexample :
    OptimizedHttpClient.shouldRetryRequest false 512 = false ∧
    OptimizedHttpClient.handleRequestCompleteRetry false 512 = true := by
  decide

namespace HarvestScheduler

/-- The scheduler state that triggerHarvest touches: the re-entrancy flag,
the failure counter, the event buffer (abstracted to its queued list, as
drained by drainEvents), the dead letter store (abstracted to the failed
events handed to addFailedEvents) and the harvest metrics counters. -/
structure SchedState where
  isHarvesting : Bool
  consecutiveFailures : Int
  buffer : List Event
  deadLetter : List Event
  harvestsCompleted : Int
  harvestsSuccessful : Int
  harvestsFailed : Int
deriving DecidableEq

/-- triggerHarvest options ({force, isFinalHarvest}). -/
structure Options where
  force : Bool := false
  isFinalHarvest : Bool := false
deriving DecidableEq

/-- Environment: whether buildHarvestUrl succeeds (it throws when the
NRVIDEO configuration is missing), and the retry flag the HTTP client
reports for the i-th chunk send of the cycle. -/
structure Env where
  urlOk : Bool
  send : Nat → Bool

/-- Outcome reason reported by triggerHarvest. -/
inductive Reason
  | harvestInProgress
  | noEvents
  | noEventsDrained
  | completed
  | cycleError
deriving DecidableEq

/-- BaseHarvester.getMaxChunkSize. -/
def getMaxChunkSize (isFinalHarvest : Bool) : Nat :=
  if isFinalHarvest then MAX_BEACON_SIZE else MAX_PAYLOAD_SIZE

/-- The sequential for-loop over chunks: the i-th send reports
`env.send i` as its retry flag; a retrying chunk is handed to the dead
letter store. Returns the per-chunk success flags and the events routed to
the dead letter store, in order. -/
def sendChunks (env : Env) : Nat → List (List Event) → List Bool × List Event
  | _, [] => ([], [])
  | i, c :: cs =>
      let retry := env.send i
      let r := sendChunks env (i + 1) cs
      ((!retry) :: r.1, (if retry then c else []) ++ r.2)

/-- HarvestScheduler.triggerHarvest. Mirrors the control flow: the
re-entrancy guard (skipped when options.force), setting isHarvesting, the
empty-buffer no_events return, drainEvents, chunkEvents, the sequential
chunk sends with dead-letter routing, analyzeHarvestResults and
updateHarvestMetrics (success iff at least one chunk succeeded), the catch
path for a thrown buildHarvestUrl (handleHarvestFailure increments
consecutiveFailures), and the finally block clearing isHarvesting on every
path that entered the cycle. Returns (new state, (success, reason), chunks
actually sent over the network). -/
def triggerHarvest (env : Env) (s : SchedState) (opts : Options) :
    SchedState × (Bool × Reason) × List (List Event) :=
  if s.isHarvesting && !opts.force then
    (s, (false, Reason.harvestInProgress), [])
  else
    let s1 : SchedState := { s with isHarvesting := true }
    if s1.buffer.isEmpty && !opts.force then
      ({ s1 with isHarvesting := false }, (true, Reason.noEvents), [])
    else
      let events := s1.buffer
      let s2 : SchedState := { s1 with buffer := [] }
      if events.isEmpty then
        ({ s2 with isHarvesting := false }, (true, Reason.noEventsDrained), [])
      else
        let chunks := BaseHarvester.chunkEvents events
          (getMaxChunkSize opts.isFinalHarvest)
        if !env.urlOk then
          ({ s2 with
               isHarvesting := false
               consecutiveFailures := s2.consecutiveFailures + 1 },
           (false, Reason.cycleError), [])
        else
          let r := sendChunks env 0 chunks
          let anySuccess := r.1.any id
          let s3 : SchedState := { s2 with deadLetter := s2.deadLetter ++ r.2 }
          let s4 : SchedState :=
            if anySuccess then
              { s3 with
                  harvestsCompleted := s3.harvestsCompleted + 1
                  harvestsSuccessful := s3.harvestsSuccessful + 1
                  consecutiveFailures := 0
                  isHarvesting := false }
            else
              { s3 with
                  harvestsCompleted := s3.harvestsCompleted + 1
                  harvestsFailed := s3.harvestsFailed + 1
                  consecutiveFailures := s3.consecutiveFailures + 1
                  isHarvesting := false }
          (s4, (anySuccess, Reason.completed), chunks)

end HarvestScheduler

/-- C7 (amended): the re-entrancy guard applies to calls without force: a
call made while isHarvesting is true and options.force is not set returns
immediately with reason harvest_in_progress, leaving the state untouched,
draining nothing and sending nothing; and isHarvesting is cleared by the
finally block whenever a cycle actually runs — after any call,
isHarvesting is true only on the skipped re-entrant path (it equals
`s.isHarvesting && !opts.force`), so it is cleared on success, on failure
and on the exception path alike. -/
theorem C7_harvest_mutual_exclusion :
    (∀ (env : HarvestScheduler.Env) (s : HarvestScheduler.SchedState)
        (opts : HarvestScheduler.Options),
      s.isHarvesting = true → opts.force = false →
      HarvestScheduler.triggerHarvest env s opts
        = (s, (false, HarvestScheduler.Reason.harvestInProgress), [])) ∧
    (∀ (env : HarvestScheduler.Env) (s : HarvestScheduler.SchedState)
        (opts : HarvestScheduler.Options),
      (HarvestScheduler.triggerHarvest env s opts).1.isHarvesting
        = (s.isHarvesting && !opts.force)) := by
  constructor
  · intro env s opts h1 h2
    simp [HarvestScheduler.triggerHarvest, h1, h2]
  · intro env s opts
    by_cases hguard : (s.isHarvesting && !opts.force) = true
    · rw [hguard]
      simp only [HarvestScheduler.triggerHarvest, hguard, if_true]
      exact (Bool.and_elim_left hguard)
    · rw [Bool.not_eq_true] at hguard
      rw [hguard]
      simp only [HarvestScheduler.triggerHarvest, hguard, Bool.false_eq_true,
        if_false]
      split
      · rfl
      · split
        · rfl
        · split
          · rfl
          · split
            · rfl
            · rfl

/-- An environment with a valid harvest URL where every send succeeds. -/
def envOk : HarvestScheduler.Env := { urlOk := true, send := fun _ => false }

/-- A queued event for the scheduler scenarios. -/
def evSched : Event := { actionName := "CONTENT_START", size := 20, id := 9 }

/-- A scheduler state with a harvest cycle already in flight and one
queued event. -/
def sBusy : HarvestScheduler.SchedState :=
  { isHarvesting := true, consecutiveFailures := 0, buffer := [evSched],
    deadLetter := [], harvestsCompleted := 0, harvestsSuccessful := 0,
    harvestsFailed := 0 }

/-- Witness for C7 at a concrete input: a plain (non-forced) call while a
cycle is in flight skips and leaves isHarvesting set. -/
theorem C7_harvest_mutual_exclusion_witness :
    HarvestScheduler.triggerHarvest envOk sBusy
        { force := false, isFinalHarvest := false }
      = (sBusy, (false, HarvestScheduler.Reason.harvestInProgress), []) ∧
    (HarvestScheduler.triggerHarvest envOk sBusy
        { force := false, isFinalHarvest := false }).1.isHarvesting = true :=
  ⟨C7_harvest_mutual_exclusion.1 envOk sBusy
      { force := false, isFinalHarvest := false } rfl rfl,
   C7_harvest_mutual_exclusion.2 envOk sBusy
      { force := false, isFinalHarvest := false }⟩

/-- C7 counterexample: a call made while isHarvesting is true but with
force set does NOT return immediately — it drains the buffer and sends a
chunk, refuting the claim for "any call". -/
theorem C7_counterexample :
    sBusy.isHarvesting = true ∧
    (HarvestScheduler.triggerHarvest envOk sBusy
        { force := true, isFinalHarvest := false }).2.2 = [[evSched]] ∧
    (HarvestScheduler.triggerHarvest envOk sBusy
        { force := true, isFinalHarvest := false }).1.buffer = [] := by
  decide

/-- C9: with the buffer empty, the dead letter store empty, no harvest in
flight and force not set, triggerHarvest reports no_events, sends nothing
over the network, and returns the state completely unchanged (buffer,
dead letter store, consecutiveFailures and all harvest counters
included). -/
theorem C9_no_events (env : HarvestScheduler.Env)
    (s : HarvestScheduler.SchedState) (opts : HarvestScheduler.Options)
    (h1 : s.isHarvesting = false) (h2 : s.buffer = [])
    (_h3 : s.deadLetter = []) (h4 : opts.force = false) :
    HarvestScheduler.triggerHarvest env s opts
      = (s, (true, HarvestScheduler.Reason.noEvents), []) := by
  cases s with
  | mk ih cf buf dl hc hs hf =>
      simp only at h1 h2
      subst h1
      subst h2
      simp [HarvestScheduler.triggerHarvest, h4]

/-- An idle scheduler state with non-zero counters, and an environment
that would fail every send (nothing must reach it). -/
def sIdle : HarvestScheduler.SchedState :=
  { isHarvesting := false, consecutiveFailures := 3, buffer := [],
    deadLetter := [], harvestsCompleted := 5, harvestsSuccessful := 2,
    harvestsFailed := 3 }

def envDown : HarvestScheduler.Env := { urlOk := false, send := fun _ => true }

/-- Witness for C9 at a concrete input. -/
theorem C9_no_events_witness :
    HarvestScheduler.triggerHarvest envDown sIdle
        { force := false, isFinalHarvest := true }
      = (sIdle, (true, HarvestScheduler.Reason.noEvents), []) :=
  C9_no_events envDown sIdle { force := false, isFinalHarvest := true }
    rfl rfl rfl rfl
